import Mathlib

/-!
Verification of the pihub remote orchestrator core against its
specification.  Each Python component relevant to the checked claims is
shallowly embedded as executable Lean definitions translated line by line
from the source files, and the claims are settled as theorems about those
definitions.
-/

set_option maxHeartbeats 1000000

namespace PiHub

/-! ## Event bus (src/pihub/orchestrator/eventbus.py)

`EventBus.publish` fans an event out to each subscriber queue with
`put_nowait`; on `QueueFull` it drops the oldest element (`get_nowait`)
and retries the `put_nowait`.  An `asyncio.Queue(maxsize=n)` is full iff
`0 < n` and its size is at least `n`; `maxsize = 0` means unbounded. -/

/-- One `publish` into a single subscriber queue of capacity `n`
(the queue is the list, oldest first), translated from
`EventBus.publish`. -/
def busPublish (n : Nat) (q : List α) (e : α) : List α :=
  if 0 < n ∧ n ≤ q.length then q.drop 1 ++ [e] else q ++ [e]

/-- A sequence of publishes with no intervening consumption. -/
def busPublishAll (n : Nat) (q : List α) (es : List α) : List α :=
  es.foldl (busPublish n) q

/-! ## Radio dial (src/pihub/orchestrator/radio.py) -/

/-- State of `RadioDial`: station catalog and integer cursor. -/
structure RadioState where
  stations : List String
  index : Int
deriving Repr, DecidableEq

/-- `RadioDial.set_index`: on an empty catalog reset the cursor to `-1`
and return `-1`; otherwise store and return `idx % len` (Python `%`,
i.e. `Int.emod` for a positive modulus). -/
def radioSetIndex (s : RadioState) (idx : Int) : RadioState × Int :=
  if s.stations.isEmpty then ({ s with index := -1 }, -1)
  else
    let i := idx % (s.stations.length : Int)
    ({ s with index := i }, i)

/-- `RadioDial.next`. -/
def radioNext (s : RadioState) : RadioState × Int :=
  radioSetIndex s (if s.index ≥ 0 then s.index + 1 else 0)

/-- `RadioDial.prev`. -/
def radioPrev (s : RadioState) : RadioState × Int :=
  radioSetIndex s (if s.index ≥ 0 then s.index - 1 else 0)

/-! ## Dispatcher (src/pihub/dispatcher.py)

Time is modelled in whole milliseconds (`Nat`).  The three task tables of
the dispatcher are embedded as explicit state: `pressedAt` mirrors
`_pressed_at`, `repeatKeys` the key set of `_repeat_tasks`, and `holds`
the `_hold_tasks` table, where each entry carries the data the scheduled
`_hold_runner` closure captured (text, repeat flag) plus its wake-up
deadline `press time + min_hold_ms`. -/

/-- One action binding from `keymap.json` as read by
`Dispatcher._do_action`: `kind` is the `do` field, `when_` defaults to
"down", `minHold` is `int(a.get("min_hold_ms", 0))`. -/
structure Binding where
  kind : String
  usage : String := ""
  code : String := ""
  text : String := ""
  when_ : String := "down"
  rep : Bool := false
  minHold : Int := 0
deriving Repr, DecidableEq

/-- A scheduled `_hold_runner` task: keyed by `(key, idx)`, waking at
`deadline`, with the captured emit payload. -/
structure HoldTask where
  key : String
  idx : Nat
  deadline : Nat
  text : String
  rep : Bool
deriving Repr, DecidableEq

/-- Dispatcher task tables. -/
structure DState where
  pressedAt : List (String × Nat)
  repeatKeys : List String
  holds : List HoldTask
deriving Repr, DecidableEq

/-- Externally visible dispatcher effects: control-plane sends
(`_send_cmd`), BLE edge calls, and task creations. -/
inductive Eff where
  | send (text : String)
  | bleDown (usage code : String)
  | bleUp (usage code : String)
  | repeatStart (key : String)
  | holdStart (key : String) (idx : Nat)
deriving Repr, DecidableEq

/-- `Dispatcher._start_repeat`: no-op when a repeat task for the key
already exists. -/
def startRepeat (s : DState) (key : String) : DState × List Eff :=
  if s.repeatKeys.contains key then (s, [])
  else ({ s with repeatKeys := key :: s.repeatKeys }, [.repeatStart key])

/-- `Dispatcher._cancel_hold_tasks`: drop every hold task of the key
(the cancelled task's `finally` also removes its table entry). -/
def cancelHolds (s : DState) (key : String) : DState :=
  { s with holds := s.holds.filter (fun h => h.key ≠ key) }

/-- `Dispatcher._do_action` for one binding at index `idx`, at time `t`. -/
def doAction (t : Nat) (key : String) (idx : Nat) (edge : String)
    (b : Binding) (s : DState) : DState × List Eff :=
  if b.kind ≠ "ble" ∧ edge ≠ b.when_ then (s, [])
  else if b.kind = "ble" then
    if edge = "down" then (s, [.bleDown b.usage b.code])
    else if edge = "up" then (s, [.bleUp b.usage b.code])
    else (s, [])
  else if b.kind = "emit" then
    if b.when_ = "up" ∧ edge = "up" then
      if b.minHold > 0 then
        match s.pressedAt.lookup key with
        | none => (s, [])
        | some t0 =>
          if (t : Int) - (t0 : Int) < b.minHold then (s, [])
          else (s, [.send b.text])
      else (s, [.send b.text])
    else if b.when_ = "down" ∧ edge = "down" then
      if b.minHold > 0 then
        if s.holds.any (fun h => h.key = key ∧ h.idx = idx) then (s, [])
        else ({ s with holds := s.holds ++ [⟨key, idx, t + b.minHold.toNat, b.text, b.rep⟩] },
              [.holdStart key idx])
      else
        let r := if b.rep then startRepeat s key else (s, [])
        (r.1, .send b.text :: r.2)
    else (s, [])
  else (s, [])

/-- The enumerated binding loop of `Dispatcher.on_usb_edge`. -/
def runActionsFrom (t : Nat) (key edge : String) (idx : Nat) :
    List Binding → DState → DState × List Eff
  | [], s => (s, [])
  | b :: rest, s =>
    let r1 := doAction t key idx edge b s
    let r2 := runActionsFrom t key edge (idx + 1) rest r1.1
    (r2.1, r1.2 ++ r2.2)

/-- `(self._bindings.get(self._activity, {}) or {})`: the per-activity
keymap, empty when no activity is set or it is not a key. -/
def activityMap (acts : List (String × List (String × List Binding)))
    (activity : Option String) : List (String × List Binding) :=
  match activity with
  | none => []
  | some a => (acts.lookup a).getD []

/-- `Dispatcher.on_usb_edge`. -/
def onUsbEdge (acts : List (String × List (String × List Binding)))
    (activity : Option String) (key edge : String) (t : Nat) (s : DState) :
    DState × List Eff :=
  let s1 :=
    if edge = "down" then
      cancelHolds { s with pressedAt := (key, t) :: s.pressedAt.filter (fun p => p.1 ≠ key) } key
    else if edge = "up" then
      cancelHolds { s with repeatKeys := s.repeatKeys.filter (· ≠ key) } key
    else s
  let bs := ((activityMap acts activity).lookup key).getD []
  let r := runActionsFrom t key edge 0 bs s1
  let s2 :=
    if edge = "up" then { r.1 with pressedAt := r.1.pressedAt.filter (fun p => p.1 ≠ key) }
    else r.1
  (s2, r.2)

/-- The body of `_hold_runner` once its `asyncio.sleep` completes: fire
the emit iff the key is still in `pressed_at`; the `finally` clause
removes the task's table entry either way. -/
def fireHold (s : DState) (h : HoldTask) : DState × List Eff :=
  let base := { s with holds := s.holds.filter (fun x => ¬(x.key = h.key ∧ x.idx = h.idx)) }
  if (s.pressedAt.lookup h.key).isSome then
    let r := if h.rep then startRepeat base h.key else (base, [])
    (r.1, .send h.text :: r.2)
  else (base, [])

/-- Fire every hold task whose deadline has passed by time `t`. -/
def fireDue (t : Nat) (s : DState) : DState × List Eff :=
  (s.holds.filter (fun h => h.deadline ≤ t)).foldl
    (fun acc h =>
      let r := fireHold acc.1 h
      (r.1, acc.2 ++ r.2))
    (s, [])

/-- Drive the dispatcher over time-stamped edges: before each edge the
due hold timers fire, then the edge is processed; at `tEnd` any
remaining timers fire. -/
def runScenario (acts : List (String × List (String × List Binding)))
    (activity : Option String) (evs : List (Nat × String × String)) (tEnd : Nat) :
    DState × List Eff :=
  let step := fun (acc : DState × List Eff) (ev : Nat × String × String) =>
    let f := fireDue ev.1 acc.1
    let r := onUsbEdge acts activity ev.2.1 ev.2.2 ev.1 f.1
    (r.1, acc.2 ++ f.2 ++ r.2)
  let mid := evs.foldl step (⟨[], [], []⟩, [])
  let fin := fireDue tEnd mid.1
  (fin.1, mid.2 ++ fin.2)

/-! ## Input reader (src/pihub/input_unifying.py) -/

/-- `UnifyingReader._resolve_logical_key`: prefer the numeric MSC
mapping; on a miss (or falsy mapping) fall back to the kernel key-name
mapping.  `keyName` stands for `_key_name_from_code` (the evdev
`ecodes.KEY` table). -/
def resolveLogicalKey (m : List (String × String)) (keyName : Nat → Option String)
    (keyCode : Nat) (mscScan : Option Nat) : Option String :=
  let namePath : Option String :=
    match keyName keyCode with
    | some n =>
      if n ≠ "" then
        match m.lookup n with
        | some v => if v ≠ "" then some v else none
        | none => none
      else none
    | none => none
  match mscScan with
  | some sc =>
    match m.lookup (toString sc) with
    | some v => if v ≠ "" then some v else namePath
    | none => namePath
  | none => namePath

/-- Modelled from the spec's resolution order as the claim states it
(steps 1-3 of section 4.4): when a pending `mscScan` is present, only
`scancode_map[str(mscScan)]` is consulted; the key-name table is
consulted only when no `mscScan` is pending; otherwise the event is
unmapped.  Used solely to compare the claim's words with the code. -/
def resolveLogicalKeyClaim (m : List (String × String)) (keyName : Nat → Option String)
    (keyCode : Nat) (mscScan : Option Nat) : Option String :=
  match mscScan with
  | some sc =>
    match m.lookup (toString sc) with
    | some v => if v ≠ "" then some v else none
    | none => none
  | none =>
    match keyName keyCode with
    | some n =>
      if n ≠ "" then
        match m.lookup n with
        | some v => if v ≠ "" then some v else none
        | none => none
      else none
    | none => none

/-- Per-device-loop reader state: the pending MSC scancode and the
pressed `(logicalKey, rawCode)` set. -/
structure ReaderState where
  lastMsc : Option Nat
  pressed : List (String × Nat)
deriving Repr, DecidableEq

/-- One raw input event, as the reader's event loop sees it. -/
inductive InputEvent where
  | msc (value : Nat)
  | key (code : Nat) (value : Nat)
  | other
deriving Repr, DecidableEq

/-- One iteration of the `async_read_loop` body: MSC events store the
pending scancode; key events resolve, clear the pending scancode
(single-use), drop unmapped keys and kernel auto-repeat (`value = 2`),
emit `down` only on the first press, and always emit `up`. -/
def readerStep (m : List (String × String)) (keyName : Nat → Option String)
    (s : ReaderState) (ev : InputEvent) : ReaderState × List (String × String) :=
  match ev with
  | .msc v => ({ s with lastMsc := some v }, [])
  | .other => (s, [])
  | .key code val =>
    let logical := resolveLogicalKey m keyName code s.lastMsc
    let s1 := { s with lastMsc := none }
    match logical with
    | none => (s1, [])
    | some lk =>
      if val = 2 then (s1, [])
      else if val = 1 then
        if s1.pressed.contains (lk, code) then (s1, [])
        else ({ s1 with pressed := (lk, code) :: s1.pressed }, [(lk, "down")])
      else
        ({ s1 with pressed := s1.pressed.filter (· ≠ (lk, code)) }, [(lk, "up")])

/-! ## HID client (src/pihub/bt_le/hid_client.py) -/

/-- The calls `HIDClient` makes on its transport
(`notify_keyboard` / `notify_consumer`). -/
inductive TCall where
  | notifyKb (report : List Nat)
  | notifyCons (usageId : Nat) (pressed : Bool)
deriving Repr, DecidableEq

/-- The all-zero 8-byte keyboard release report. -/
def zeroReport : List Nat := [0, 0, 0, 0, 0, 0, 0, 0]

/-- `HIDClient._encode_keyboard_down`: unknown codes encode as the
all-zero report; otherwise the single usage sits at byte index 2. -/
def encodeKeyboardDown (kb : List (String × Nat)) (code : String) : List Nat :=
  match kb.lookup code with
  | none => zeroReport
  | some h => [0, 0, h, 0, 0, 0, 0, 0]

/-- `HIDClient._encode_consumer_usage`: `int(self._cc.get(code) or 0)`. -/
def encodeConsumerUsage (cc : List (String × Nat)) (code : String) : Nat :=
  (cc.lookup code).getD 0

/-- `HIDClient.key_down`: keyboard edges always notify; consumer edges
are skipped when the usage id is falsy (unknown code). -/
def clientKeyDown (kb cc : List (String × Nat)) (usage code : String) : List TCall :=
  if usage = "keyboard" then [.notifyKb (encodeKeyboardDown kb code)]
  else if usage = "consumer" then
    let id := encodeConsumerUsage cc code
    if id ≠ 0 then [.notifyCons id true] else []
  else []

/-- `HIDClient.key_up`. -/
def clientKeyUp (kb cc : List (String × Nat)) (usage code : String) : List TCall :=
  if usage = "keyboard" then [.notifyKb zeroReport]
  else if usage = "consumer" then
    let id := encodeConsumerUsage cc code
    if id ≠ 0 then [.notifyCons id false] else []
  else []

/-- `HIDClient.send_key`: down, delay, up. -/
def clientTapCalls (kb cc : List (String × Nat)) (usage code : String) : List TCall :=
  clientKeyDown kb cc usage code ++ clientKeyUp kb cc usage code

/-- A macro step: either an idle `wait_ms` delay or a timed tap
(src/pihub/macros.py `Step`). -/
inductive MStep where
  | wait (ms : Int)
  | tap (usage code : String) (holdMs : Option Int)
deriving Repr, DecidableEq

/-- Transport calls produced by `HIDClient.run_macro` over a step list
(waits and inter-step delays emit nothing). -/
def clientPlaySteps (kb cc : List (String × Nat)) (steps : List MStep) : List TCall :=
  steps.flatMap fun st =>
    match st with
    | .wait _ => []
    | .tap u c _ => clientTapCalls kb cc u c

/-! ## BLE transport and controller (src/pihub/bt_le/controller.py) -/

/-- Wire notifications emitted on the GATT characteristics. -/
inductive Notif where
  | kb (report : List Nat)
  | cons (payload : Nat × Nat)
deriving Repr, DecidableEq

/-- `HIDTransportBLE.notify_consumer` payload:
`(usage_id if pressed else 0).to_bytes(2, "little")`, i.e. the 2-byte
little-endian encoding (defined for ids below 2^16, the report map's
consumer range being 0..0x3FF). -/
def consumerPayload (usageId : Nat) (pressed : Bool) : Nat × Nat :=
  let v := if pressed then usageId else 0
  (v % 256, v / 256)

/-- One transport call: dropped when `_hid_service` is absent
(`svc = false`), otherwise notified on the matching characteristic. -/
def transportNotify (svc : Bool) (c : TCall) : List Notif :=
  if svc then
    match c with
    | .notifyKb r => [.kb r]
    | .notifyCons id pressed => [.cons (consumerPayload id pressed)]
  else []

/-- A sequence of transport calls. -/
def transportRun (svc : Bool) (cs : List TCall) : List Notif :=
  cs.flatMap (transportNotify svc)

/-- `BTLEController` state: the `_available` flag and whether the
transport currently holds a `_hid_service`. -/
structure CtrlState where
  available : Bool
  svc : Bool
deriving Repr, DecidableEq

/-- `BTLEController.key_down`: forwarded only when available. -/
def ctrlKeyDown (st : CtrlState) (kb cc : List (String × Nat)) (usage code : String) :
    List Notif :=
  if st.available then transportRun st.svc (clientKeyDown kb cc usage code) else []

/-- `BTLEController.key_up`: forwarded only when available. -/
def ctrlKeyUp (st : CtrlState) (kb cc : List (String × Nat)) (usage code : String) :
    List Notif :=
  if st.available then transportRun st.svc (clientKeyUp kb cc usage code) else []

/-- `BTLEController.send_key` (tap): gated once on `available`. -/
def ctrlSendKey (st : CtrlState) (kb cc : List (String × Nat)) (usage code : String) :
    List Notif :=
  if st.available then transportRun st.svc (clientTapCalls kb cc usage code) else []

/-- `BTLEController.run_macro`: gated once on `available`. -/
def ctrlPlaySteps (st : CtrlState) (kb cc : List (String × Nat)) (steps : List MStep) :
    List Notif :=
  if st.available then transportRun st.svc (clientPlaySteps kb cc steps) else []

/-- `BTLEController.stop`: cancels the supervisor, stops the transport
(which drops `_hid_service`), and clears `_available`. -/
def ctrlStop (_st : CtrlState) : CtrlState :=
  { available := false, svc := false }

/-! ## Apple TV macros (src/pihub/macros.py, src/pihub/orchestrator/macros.py) -/

/-- The `MACROS` table of src/pihub/macros.py. -/
def atvSeqs : List (String × List MStep) :=
  [("power_on",
    [.tap "consumer" "power" (some 40),
     .wait 3000,
     .tap "consumer" "menu" (some 40)]),
   ("power_off",
    [.tap "consumer" "stop" (some 40),
     .tap "consumer" "ac_home" (some 40),
     .tap "consumer" "ac_home" (some 40),
     .tap "consumer" "menu" (some 40),
     .tap "consumer" "menu" (some 40),
     .tap "consumer" "power" (some 2000)])]

/-- The attribute names defined on class `BTLEController`
(controller.py): Python `getattr` resolves method calls against these. -/
def btleMethods : List String :=
  ["__init__", "available", "start", "stop", "wait_ready",
   "_run", "_sleep_with_stop", "key_down", "key_up", "send_key", "run_macro"]

/-- `AppleTVMacros.fire`: look the name up in the `MACROS` table, return
silently when absent or empty, otherwise invoke
`self._bt.play_macro(seq, hold_ms_default=40)` — an attribute access on
`BTLEController` that raises `AttributeError` when no such attribute is
defined.  On success the played step list is returned. -/
def atvFire (name : String) : Except String (List MStep) :=
  match atvSeqs.lookup name with
  | none => .ok []
  | some seq =>
    if seq.isEmpty then .ok []
    else if btleMethods.contains "play_macro" then .ok seq
    else .error "AttributeError: play_macro"

/-! ## Activity FSM (src/pihub/orchestrator/fsm.py) -/

/-- The observable effects of an FSM entry action, in program order.
`spawnAtvTask` is `asyncio.create_task(self.macros...)` — fire-and-forget
task creation, not an awaited call. -/
inductive FsmEff where
  | publishActivity (activity : String) (passive : Bool)
  | spawnAtvTask (name : String)
  | maStop
  | kefSetMute (b : Bool)
  | kvSetStr (key value : String)
  | postWebhook (activity : String)
  | emitState
deriving Repr, DecidableEq

/-- `FSM.enter_off` (reached from `cmd_power_off`): the effect trace as
the coroutine awaits it, with the macro launch as a spawned task. -/
def enterOff (tvCachedPower : String) : List FsmEff :=
  [.publishActivity "OFF" false]
    ++ (if tvCachedPower = "on" then [.spawnAtvTask "power_off"] else [])
    ++ [.maStop, .kefSetMute true, .kvSetStr "last_activity" "OFF",
        .postWebhook "power_off", .emitState]

/-! ## Persist / restore (src/pihub/orchestrator/fsm.py, persistence.py)

`SQLiteKV` stores JSON-encoded values; `mget` returns `None` for a
missing key, so each persisted key is modelled as an `Option` of the
type the FSM writes for it. -/

/-- FSM volume/station defaults (`Defaults` dataclass). -/
structure FsmDefaults where
  watch_volume : Int
  listen_volume : Int
  listen_station : Option String
deriving Repr, DecidableEq

/-- The persisted portion of `OrchestratorState`. -/
structure OState where
  activity : String
  radio_index : Int
  tv_power : String
  kef_source : String
  kef_volume : Int
  kef_mute : Bool
  ma_player_id : Option String
  ma_state : String
deriving Repr, DecidableEq

/-- The eleven persisted keys (exact names, one field per key). -/
structure Store where
  last_activity : Option String
  radio_station_index : Option Int
  tv_last_power : Option String
  kef_last_source : Option String
  kef_last_volume : Option Int
  kef_last_mute : Option Bool
  ma_player_id : Option String
  ma_last_state : Option String
  kef_default_watch : Option Int
  kef_default_listen : Option Int
  listen_default_station : Option String
deriving Repr, DecidableEq

/-- The store contents after the code's `kv.set` writes for all eleven
keys (`_persist_snapshots` plus the `last_activity`,
`radio_station_index` and defaults writes). -/
def persistAll (s : OState) (d : FsmDefaults) : Store :=
  { last_activity := some s.activity
    radio_station_index := some s.radio_index
    tv_last_power := some s.tv_power
    kef_last_source := some s.kef_source
    kef_last_volume := some s.kef_volume
    kef_last_mute := some s.kef_mute
    ma_player_id := s.ma_player_id
    ma_last_state := some s.ma_state
    kef_default_watch := some d.watch_volume
    kef_default_listen := some d.listen_volume
    listen_default_station := d.listen_station }

/-- Python `data.get(k) or dflt` on a string-valued key:
`None` and the empty string are falsy. -/
def pyOrStr (v : Option String) (dflt : String) : String :=
  match v with
  | some s => if s = "" then dflt else s
  | none => dflt

/-- Python `data.get(k) or dflt` on an int-valued key: `None` and `0`
are falsy. -/
def pyOrInt (v : Option Int) (dflt : Int) : Int :=
  match v with
  | some i => if i = 0 then dflt else i
  | none => dflt

/-- Python `data.get(k) or dflt` where the default is itself optional
(`listen_default_station`). -/
def pyOrOptStr (v : Option String) (dflt : Option String) : Option String :=
  match v with
  | some s => if s = "" then dflt else some s
  | none => dflt

/-- Python `str.upper` (ASCII, as used on activity names). -/
def upperStr (s : String) : String := ⟨s.data.map Char.toUpper⟩

/-- `FSM.restore`: read the eleven keys and apply the code's `or`
defaults and coercions; `kef_last_volume` falls back to the pre-restore
`watch_volume` default (line order in the source). -/
def restoreFsm (st : Store) (d : FsmDefaults) : OState × FsmDefaults :=
  ({ activity := upperStr (pyOrStr st.last_activity "OFF")
     radio_index := pyOrInt st.radio_station_index (-1)
     tv_power := pyOrStr st.tv_last_power "off"
     kef_source := pyOrStr st.kef_last_source "Opt"
     kef_volume := pyOrInt st.kef_last_volume d.watch_volume
     kef_mute := st.kef_last_mute.getD false
     ma_player_id := st.ma_player_id
     ma_state := pyOrStr st.ma_last_state "off" },
   { watch_volume := pyOrInt st.kef_default_watch d.watch_volume
     listen_volume := pyOrInt st.kef_default_listen d.listen_volume
     listen_station := pyOrOptStr st.listen_default_station d.listen_station })

/-- Spec-modelled decoder for consumer reports (no decoder exists under
src/; the spec's round-trip law reads a code back from its 2-byte
report): reverse lookup of the 16-bit usage `b0 + 256*b1` in the
consumer table. -/
def decodeConsumer (cc : List (String × Nat)) (p : Nat × Nat) : Option String :=
  (cc.find? (fun kv => kv.2 == p.1 + 256 * p.2)).map Prod.fst

/-! ## Helper lemmas -/

theorem pyOrInt_ne (v d : Int) (h : v ≠ 0) : pyOrInt (some v) d = v := by
  simp [pyOrInt, h]

theorem pyOrStr_ne (s d : String) (h : s ≠ "") : pyOrStr (some s) d = s := by
  simp [pyOrStr, h]

theorem pyOrInt_self (v : Int) : pyOrInt (some v) v = v := by
  by_cases h : v = 0 <;> simp [pyOrInt, h]

theorem pyOrOptStr_self (v : Option String) : pyOrOptStr v v = v := by
  cases v with
  | none => rfl
  | some s => by_cases h : s = "" <;> simp [pyOrOptStr, h]

theorem radioSetIndex_snd (s : RadioState) (idx : Int) :
    (radioSetIndex s idx).2 =
      if s.stations.isEmpty then -1 else idx % (s.stations.length : Int) := by
  unfold radioSetIndex
  by_cases h : s.stations.isEmpty <;> simp [h]

theorem lookup_mem {β : Type} (l : List (String × β)) (a : String) (b : β)
    (h : l.lookup a = some b) : (a, b) ∈ l := by
  induction l with
  | nil => simp [List.lookup] at h
  | cons p rest ih =>
    rcases p with ⟨k, v⟩
    cases hk : (a == k) with
    | true =>
      have hk2 : a = k := eq_of_beq hk
      simp only [List.lookup, hk] at h
      simp only [Option.some.injEq] at h
      subst hk2
      rw [← h]
      exact List.mem_cons_self _ _
    | false =>
      simp only [List.lookup, hk] at h
      exact List.mem_cons_of_mem _ (ih h)

/-! ## Claim theorems -/

/-- C9: radio dial `next`/`prev` from cursor `-1` on a nonempty catalog
return `0`; on an empty catalog both return `-1`; from a nonnegative
cursor on a nonempty catalog both advance the cursor modulo the catalog
length. -/
theorem c9_radio_dial (s : RadioState) :
    (s.stations ≠ [] → s.index = -1 →
      (radioNext s).2 = 0 ∧ (radioPrev s).2 = 0) ∧
    (s.stations = [] → (radioNext s).2 = -1 ∧ (radioPrev s).2 = -1) ∧
    (s.stations ≠ [] → s.index ≥ 0 →
      (radioNext s).2 = (s.index + 1) % (s.stations.length : Int) ∧
      (radioPrev s).2 = (s.index - 1) % (s.stations.length : Int)) := by
  refine ⟨?_, ?_, ?_⟩
  · intro hne hidx
    have hE : s.stations.isEmpty = false := by simpa [List.isEmpty_iff] using hne
    have h0 : ¬ s.index ≥ 0 := by rw [hidx]; decide
    rw [radioNext, radioPrev, if_neg h0, if_neg h0, radioSetIndex_snd, hE]
    simp
  · intro he
    have hE : s.stations.isEmpty = true := by simp [List.isEmpty_iff, he]
    rw [radioNext, radioPrev, radioSetIndex_snd, radioSetIndex_snd, hE]
    simp
  · intro hne hidx
    have hE : s.stations.isEmpty = false := by simpa [List.isEmpty_iff] using hne
    rw [radioNext, radioPrev, if_pos hidx, if_pos hidx, radioSetIndex_snd,
      radioSetIndex_snd, hE]
    simp

/-- Witness for C9 at concrete states. -/
theorem c9_radio_dial_witness :
    ((["a", "b"] : List String) ≠ [] ∧
      (radioNext ⟨["a", "b"], -1⟩).2 = 0 ∧ (radioPrev ⟨["a", "b"], -1⟩).2 = 0) ∧
    (radioNext ⟨[], 5⟩).2 = -1 ∧
    ((radioNext ⟨["a", "b", "c"], 1⟩).2 = (1 + 1) % 3 ∧
      (radioPrev ⟨["a", "b", "c"], 1⟩).2 = (1 - 1) % 3) := by
  refine ⟨⟨by decide, (c9_radio_dial ⟨["a", "b"], -1⟩).1 (by decide) rfl⟩, ?_, ?_⟩
  · exact ((c9_radio_dial ⟨[], 5⟩).2.1 rfl).1
  · exact (c9_radio_dial ⟨["a", "b", "c"], 1⟩).2.2 (by decide) (by decide)

/-- C8: an unknown keyboard code encodes and sends the all-zero 8-byte
report; an unknown consumer code sends nothing on either edge. -/
theorem c8_unknown_code_handling :
    (∀ (kb cc : List (String × Nat)) (code : String), kb.lookup code = none →
      clientKeyDown kb cc "keyboard" code = [.notifyKb zeroReport]) ∧
    (∀ (kb cc : List (String × Nat)) (code : String), cc.lookup code = none →
      clientKeyDown kb cc "consumer" code = [] ∧
      clientKeyUp kb cc "consumer" code = []) := by
  constructor
  · intro kb cc code h
    simp [clientKeyDown, encodeKeyboardDown, h]
  · intro kb cc code h
    simp [clientKeyDown, clientKeyUp, encodeConsumerUsage, h]

/-- Witness for C8 with concrete tables and an absent code. -/
theorem c8_unknown_code_handling_witness :
    (List.lookup "zzz" [("a", (4 : Nat))] = none ∧
      clientKeyDown [("a", 4)] [("power", 48)] "keyboard" "zzz" = [.notifyKb zeroReport]) ∧
    (List.lookup "zzz" [("power", (48 : Nat))] = none ∧
      clientKeyDown [("a", 4)] [("power", 48)] "consumer" "zzz" = [] ∧
      clientKeyUp [("a", 4)] [("power", 48)] "consumer" "zzz" = []) :=
  ⟨⟨rfl, c8_unknown_code_handling.1 _ _ _ rfl⟩,
   ⟨rfl, c8_unknown_code_handling.2 _ _ _ rfl⟩⟩

/-- C6: while the BLE controller is not available (`available = false`,
which holds before first ready, while degraded, and after `stop`),
every `key_down`/`key_up`/`send_key`/macro-playback call produces no
notification on the transport (the model functions are total, so the
calls return normally); and `stop` leaves `available = false`. -/
theorem c6_unavailable_silent :
    (∀ (st : CtrlState) (kb cc : List (String × Nat)) (u c : String) (steps : List MStep),
      st.available = false →
        ctrlKeyDown st kb cc u c = [] ∧ ctrlKeyUp st kb cc u c = [] ∧
        ctrlSendKey st kb cc u c = [] ∧ ctrlPlaySteps st kb cc steps = []) ∧
    (∀ st : CtrlState, (ctrlStop st).available = false) := by
  constructor
  · intro st kb cc u c steps h
    simp [ctrlKeyDown, ctrlKeyUp, ctrlSendKey, ctrlPlaySteps, h]
  · intro st
    rfl

/-- Witness for C6: a degraded controller drops a consumer key edge and
a macro playback; stop clears availability. -/
theorem c6_unavailable_silent_witness :
    ((⟨false, true⟩ : CtrlState).available = false ∧
      ctrlKeyDown ⟨false, true⟩ [] [("power", 48)] "consumer" "power" = [] ∧
      ctrlPlaySteps ⟨false, true⟩ [] [("power", 48)] (atvSeqs.lookup "power_off").toList.flatten = []) ∧
    (ctrlStop ⟨true, true⟩).available = false := by
  constructor
  · refine ⟨rfl, ?_, ?_⟩
    · exact (c6_unavailable_silent.1 ⟨false, true⟩ [] [("power", 48)] "consumer" "power" [] rfl).1
    · exact (c6_unavailable_silent.1 ⟨false, true⟩ [] [("power", 48)] "consumer" "power"
        (atvSeqs.lookup "power_off").toList.flatten rfl).2.2.2
  · exact c6_unavailable_silent.2 ⟨true, true⟩

/-- C1 (code bug): `cmd_power_off` with cached TV power "on" does
schedule the power-off macro as a fire-and-forget task and the remaining
entry effects (stop music, mute, persist, webhook, snapshot) follow
unblocked in the trace — but the spawned task itself fails:
`AppleTVMacros.fire` calls `BTLEController.play_macro`, an attribute the
controller does not define (it defines `run_macro`), so the task dies
with `AttributeError` and no macro step is ever played through the BLE
macro playback. -/
theorem c1_power_off_macro_task_fails :
    enterOff "on" =
      [.publishActivity "OFF" false, .spawnAtvTask "power_off", .maStop,
       .kefSetMute true, .kvSetStr "last_activity" "OFF",
       .postWebhook "power_off", .emitState] ∧
    atvFire "power_off" = .error "AttributeError: play_macro" ∧
    "play_macro" ∉ btleMethods ∧ "run_macro" ∈ btleMethods :=
  ⟨rfl, rfl, by decide, by decide⟩

/-- C2 counterexample: the claim `Restore(persist(state)) = state` on
the eleven keys fails at a state with radio index `0` — the persisted
`radio_station_index = 0` is falsy in Python, so
`int(data.get("radio_station_index") or -1)` restores `-1`. -/
theorem c2_roundtrip_counterexample :
    (restoreFsm
        (persistAll
          { activity := "WATCH", radio_index := 0, tv_power := "on",
            kef_source := "Opt", kef_volume := 20, kef_mute := false,
            ma_player_id := none, ma_state := "off" }
          { watch_volume := 20, listen_volume := 30, listen_station := none })
        { watch_volume := 20, listen_volume := 30, listen_station := none }).1.radio_index
      = -1 := by
  decide

/-- C2 (amended): restore after persist is the identity on the eleven
persisted keys for every state whose Python-falsy-coercible values are
non-falsy: activity one of OFF/WATCH/LISTEN, radio index ≠ 0, volume ≠ 0,
and the tv/source/music-state strings nonempty.  (Zero or empty values
are swallowed by the code's `or` defaults on restore.) -/
theorem c2_roundtrip_amended (s : OState) (d : FsmDefaults)
    (hact : s.activity = "OFF" ∨ s.activity = "WATCH" ∨ s.activity = "LISTEN")
    (hradio : s.radio_index ≠ 0)
    (htv : s.tv_power ≠ "")
    (hsrc : s.kef_source ≠ "")
    (hvol : s.kef_volume ≠ 0)
    (hmast : s.ma_state ≠ "") :
    restoreFsm (persistAll s d) d = (s, d) := by
  have hup : upperStr s.activity = s.activity ∧ s.activity ≠ "" := by
    rcases hact with h | h | h <;> rw [h] <;> exact ⟨by decide, by decide⟩
  unfold restoreFsm persistAll
  rw [pyOrStr_ne _ _ hup.2, hup.1, pyOrInt_ne _ _ hradio, pyOrStr_ne _ _ htv,
    pyOrStr_ne _ _ hsrc, pyOrInt_ne _ _ hvol, pyOrStr_ne _ _ hmast,
    pyOrInt_self, pyOrInt_self, pyOrOptStr_self]
  rfl

/-- Witness for C2 (amended) at a concrete persistable state. -/
theorem c2_roundtrip_amended_witness :
    restoreFsm
        (persistAll
          { activity := "LISTEN", radio_index := 2, tv_power := "off",
            kef_source := "Wifi", kef_volume := 30, kef_mute := false,
            ma_player_id := some "p1", ma_state := "playing" }
          { watch_volume := 20, listen_volume := 30, listen_station := some "Jazz FM" })
        { watch_volume := 20, listen_volume := 30, listen_station := some "Jazz FM" }
      = ({ activity := "LISTEN", radio_index := 2, tv_power := "off",
            kef_source := "Wifi", kef_volume := 30, kef_mute := false,
            ma_player_id := some "p1", ma_state := "playing" },
         { watch_volume := 20, listen_volume := 30, listen_station := some "Jazz FM" }) :=
  c2_roundtrip_amended _ _ (Or.inr (Or.inr rfl)) (by decide) (by decide) (by decide)
    (by decide) (by decide)

/-- C3 counterexample: with a pending `mscScan` whose string is NOT in
the scancode map, the code still consults the key-name mapping and
resolves the key, while the claim's resolution order (key-name only when
no `mscScan` is pending) would drop the event. -/
theorem c3_resolution_counterexample :
    resolveLogicalKey [("KEY_A", "rem_a")]
        (fun c => if c = 30 then some "KEY_A" else none) 30 (some 786) = some "rem_a" ∧
    resolveLogicalKeyClaim [("KEY_A", "rem_a")]
        (fun c => if c = 30 then some "KEY_A" else none) 30 (some 786) = none :=
  ⟨rfl, rfl⟩

/-- C3 (amended): a pending `mscScan` is looked up first and wins when it
maps to a truthy value; when the `mscScan` lookup misses, resolution
falls back to the key-name mapping (the same path taken with no pending
`mscScan`); an unresolved event is dropped with no edge emitted; and the
pending `mscScan` is cleared after every key event regardless of the
resolution outcome. -/
theorem c3_resolution_amended :
    (∀ (m : List (String × String)) (kn : Nat → Option String) (c sc : Nat) (v : String),
      m.lookup (toString sc) = some v → v ≠ "" →
        resolveLogicalKey m kn c (some sc) = some v) ∧
    (∀ (m : List (String × String)) (kn : Nat → Option String) (c sc : Nat),
      m.lookup (toString sc) = none →
        resolveLogicalKey m kn c (some sc) = resolveLogicalKey m kn c none) ∧
    (∀ (m : List (String × String)) (kn : Nat → Option String)
        (s : ReaderState) (c val : Nat),
      resolveLogicalKey m kn c s.lastMsc = none →
        (readerStep m kn s (.key c val)).2 = []) ∧
    (∀ (m : List (String × String)) (kn : Nat → Option String)
        (s : ReaderState) (c val : Nat),
      (readerStep m kn s (.key c val)).1.lastMsc = none) := by
  refine ⟨?_, ?_, ?_, ?_⟩
  · intro m kn c sc v h hv
    simp [resolveLogicalKey, h, hv]
  · intro m kn c sc h
    simp [resolveLogicalKey, h]
  · intro m kn s c val h
    simp [readerStep, h]
  · intro m kn s c val
    simp only [readerStep]
    cases resolveLogicalKey m kn c s.lastMsc with
    | none => rfl
    | some lk =>
      by_cases h2 : val = 2
      · simp [h2]
      · by_cases h1 : val = 1
        · by_cases hp : (lk, c) ∈ s.pressed <;> simp [h2, h1, hp]
        · simp [h2, h1]

/-- Witness for C3 (amended) at concrete maps and events. -/
theorem c3_resolution_amended_witness :
    (List.lookup "786" [("786", "rem_x")] = some "rem_x" ∧ "rem_x" ≠ "" ∧
      resolveLogicalKey [("786", "rem_x")] (fun _ => none) 30 (some 786) = some "rem_x") ∧
    (List.lookup "99" [("786", "rem_x")] = none ∧
      resolveLogicalKey [("786", "rem_x")] (fun _ => none) 30 (some 99) =
        resolveLogicalKey [("786", "rem_x")] (fun _ => none) 30 none) ∧
    (readerStep [("786", "rem_x")] (fun _ => none) ⟨some 99, []⟩ (.key 30 1)).2 = [] ∧
    (readerStep [("786", "rem_x")] (fun _ => none) ⟨some 99, []⟩ (.key 30 1)).1.lastMsc
      = none :=
  ⟨⟨rfl, by decide, c3_resolution_amended.1 _ _ _ _ _ rfl (by decide)⟩,
   ⟨rfl, c3_resolution_amended.2.1 _ _ _ _ rfl⟩,
   c3_resolution_amended.2.2.1 _ _ _ _ _ rfl,
   c3_resolution_amended.2.2.2 _ _ _ _ _⟩

/-- Strengthened drop-oldest characterisation of repeated publishes into
one subscriber queue. -/
theorem busPublishAll_eq_drop {α : Type} (n : Nat) (hn : 1 ≤ n) :
    ∀ (es q : List α), q.length ≤ n →
      busPublishAll n q es = (q ++ es).drop (q.length + es.length - n) := by
  intro es
  induction es with
  | nil =>
    intro q hq
    simp [busPublishAll, Nat.sub_eq_zero_of_le hq]
  | cons e es ih =>
    intro q hq
    have hstep : busPublishAll n q (e :: es) = busPublishAll n (busPublish n q e) es := by
      simp [busPublishAll]
    rw [hstep]
    by_cases hfull : 0 < n ∧ n ≤ q.length
    · have hqn : q.length = n := le_antisymm hq hfull.2
      have hq1 : 1 ≤ q.length := by omega
      have hb : busPublish n q e = q.drop 1 ++ [e] := by
        simp [busPublish, hfull]
      have hlen : (q.drop 1 ++ [e]).length ≤ n := by
        simp only [List.length_append, List.length_drop, List.length_cons,
          List.length_nil]
        omega
      rw [hb, ih _ hlen]
      have hidx1 : (q.drop 1 ++ [e]).length + es.length - n = es.length := by
        simp only [List.length_append, List.length_drop, List.length_cons,
          List.length_nil]
        omega
      have hidx2 : q.length + (e :: es).length - n = 1 + es.length := by
        simp only [List.length_cons]
        omega
      rw [hidx1, hidx2]
      have hsplit : ((q ++ e :: es).drop 1).drop es.length
          = (q ++ e :: es).drop (1 + es.length) := by
        rw [List.drop_drop]
      rw [← hsplit, List.drop_append_of_le_length hq1]
      simp [List.append_assoc]
    · have hb : busPublish n q e = q ++ [e] := by
        simp only [busPublish, if_neg hfull]
      have hqlt : q.length < n := by
        rcases Nat.lt_or_ge q.length n with h | h
        · exact h
        · exact absurd ⟨by omega, h⟩ hfull
      have hlen : (q ++ [e]).length ≤ n := by
        simp only [List.length_append, List.length_cons, List.length_nil]
        omega
      rw [hb, ih _ hlen, List.append_assoc]
      congr 1
      simp only [List.length_append, List.length_cons, List.length_nil]
      omega

/-- C4: publish is modelled as the total (never-blocking) update
`busPublish`; after `K` publishes into an initially-empty subscriber
queue of capacity `N ≥ 1` the queue holds exactly the last `min(N, K)`
published items, in publish order (the oldest item is dropped when the
queue is full). -/
theorem c4_bus_overflow {α : Type} (n : Nat) (hn : 1 ≤ n) (es : List α) :
    busPublishAll n [] es = es.drop (es.length - n) ∧
    (busPublishAll n ([] : List α) es).length = min n es.length := by
  have h := busPublishAll_eq_drop n hn es [] (by simp)
  simp only [List.nil_append, List.length_nil, Nat.zero_add] at h
  refine ⟨h, ?_⟩
  rw [h, List.length_drop]
  omega

/-- Witness for C4: capacity 3, five publishes `1..5`, the subscriber
observes `[3, 4, 5]` (the spec's overflow scenario). -/
theorem c4_bus_overflow_witness :
    (1 ≤ 3 ∧ busPublishAll 3 ([] : List Nat) [1, 2, 3, 4, 5]
      = [1, 2, 3, 4, 5].drop ([1, 2, 3, 4, 5].length - 3)) ∧
    busPublishAll 3 ([] : List Nat) [1, 2, 3, 4, 5] = [3, 4, 5] := by
  have h := c4_bus_overflow 3 (by decide) [1, 2, 3, 4, 5]
  exact ⟨⟨by decide, h.1⟩, by decide⟩

/-- C7: for an in-table consumer code (with the usage value in the
16-bit range and the table assigning distinct values, as the real HID
usage table does), the down report is the 2-byte little-endian encoding
of `tables.consumer[code]`, the release report is `(0, 0)`, and the
spec-modelled decoder recovers the code from the encoded down report. -/
theorem c7_consumer_roundtrip (cc : List (String × Nat)) (code : String) (v : Nat)
    (hv : cc.lookup code = some v) (hlt : v < 65536)
    (hinj : (cc.map Prod.snd).Nodup) :
    consumerPayload (encodeConsumerUsage cc code) true = (v % 256, v / 256) ∧
    consumerPayload (encodeConsumerUsage cc code) false = (0, 0) ∧
    decodeConsumer cc (consumerPayload (encodeConsumerUsage cc code) true)
      = some code := by
  have henc : encodeConsumerUsage cc code = v := by
    simp [encodeConsumerUsage, hv]
  have h1 : consumerPayload (encodeConsumerUsage cc code) true = (v % 256, v / 256) := by
    rw [henc]
    simp [consumerPayload]
  have h2 : consumerPayload (encodeConsumerUsage cc code) false = (0, 0) := by
    simp [consumerPayload]
  refine ⟨h1, h2, ?_⟩
  rw [h1]
  have hmem : (code, v) ∈ cc := lookup_mem _ _ _ hv
  have hsum : v % 256 + 256 * (v / 256) = v := Nat.mod_add_div v 256
  unfold decodeConsumer
  cases hfind : cc.find? (fun kv => kv.2 == v % 256 + 256 * (v / 256)) with
  | none =>
    exfalso
    have hne := List.find?_eq_none.mp hfind (code, v) hmem
    simp [hsum] at hne
  | some e =>
    have hpe := List.find?_some hfind
    have hme := List.mem_of_find?_eq_some hfind
    have he2 : e.2 = v := by
      have hbe : e.2 = v % 256 + 256 * (v / 256) := eq_of_beq hpe
      rw [hbe, hsum]
    have heq : e = (code, v) :=
      List.inj_on_of_nodup_map hinj hme hmem (by simp [he2])
    simp [heq]

/-- Witness for C7 at a concrete two-entry consumer table. -/
theorem c7_consumer_roundtrip_witness :
    (List.lookup "power" [("power", (48 : Nat)), ("menu", 64)] = some 48 ∧
      48 < 65536 ∧ (([("power", (48 : Nat)), ("menu", 64)]).map Prod.snd).Nodup) ∧
    consumerPayload (encodeConsumerUsage [("power", 48), ("menu", 64)] "power") true
      = (48 % 256, 48 / 256) ∧
    consumerPayload (encodeConsumerUsage [("power", 48), ("menu", 64)] "power") false
      = (0, 0) ∧
    decodeConsumer [("power", 48), ("menu", 64)]
        (consumerPayload (encodeConsumerUsage [("power", 48), ("menu", 64)] "power") true)
      = some "power" := by
  have h := c7_consumer_roundtrip [("power", 48), ("menu", 64)] "power" 48 rfl
    (by decide) (by decide)
  exact ⟨⟨rfl, by decide, by decide⟩, h.1, h.2.1, h.2.2⟩

/-- Holds are untouched by `_start_repeat`. -/
theorem startRepeat_holds (s : DState) (key : String) :
    (startRepeat s key).1.holds = s.holds := by
  unfold startRepeat
  by_cases h : key ∈ s.repeatKeys <;> simp [h]

/-- C5: a `down` edge on an `emit`/`when=down` binding with
`min_hold_ms > 0` schedules a hold task keyed `(remKey, actionIndex)`
with deadline `t + min_hold_ms`; a hold task that reaches its deadline
sends its emit iff the key is still in `pressed_at` (and its table entry
is removed either way); and in the spec's early-release scenario
(`min_hold_ms = 800`, down at 0, up at 500) no emit is ever sent and
both `pressed_at` and the hold-task table end empty. -/
theorem c5_hold_to_fire :
    (∀ (t : Nat) (key : String) (idx : Nat) (txt : String) (rep : Bool)
        (hold : Int) (s : DState),
      hold > 0 →
      (s.holds.any fun h => h.key = key ∧ h.idx = idx) = false →
        doAction t key idx "down"
            { kind := "emit", text := txt, when_ := "down", rep := rep,
              minHold := hold } s =
          ({ s with holds := s.holds ++ [⟨key, idx, t + hold.toNat, txt, rep⟩] },
           [.holdStart key idx])) ∧
    (∀ (s : DState) (h : HoldTask),
      ((fireHold s h).2 ≠ [] ↔ (s.pressedAt.lookup h.key).isSome) ∧
      ((s.pressedAt.lookup h.key).isSome →
        (fireHold s h).2.head? = some (.send h.text)) ∧
      (fireHold s h).1.holds =
        s.holds.filter (fun x => ¬(x.key = h.key ∧ x.idx = h.idx))) ∧
    (runScenario
        [("WATCH", [("rem_p",
          [{ kind := "emit", text := "power_off", when_ := "down", minHold := 800 }])])]
        (some "WATCH") [(0, "rem_p", "down"), (500, "rem_p", "up")] 100000 =
      (⟨[], [], []⟩, [.holdStart "rem_p" 0])) := by
  refine ⟨?_, ?_, ?_⟩
  · intro t key idx txt rep hold s hpos hnot
    simp [doAction, hnot, hpos]
    intro x hx hk hi
    exact (List.any_eq_false.mp hnot x hx) (by simp [hk, hi])
  · intro s h
    unfold fireHold
    by_cases hp : (s.pressedAt.lookup h.key).isSome
    · refine ⟨by simp [hp], by simp [hp], ?_⟩
      simp only [hp, if_true]
      by_cases hr : h.rep <;> simp [hr, startRepeat_holds]
    · refine ⟨by simp [hp], by simp [hp], by simp [hp]⟩
  · rfl

/-- Witness for C5: the scheduling and firing parts applied at concrete
states (keyed `("rem_p", 0)`, deadline `0 + 800`), and the fire check at
a state where the key is no longer pressed. -/
theorem c5_hold_to_fire_witness :
    ((800 : Int) > 0 ∧
      (([] : List HoldTask).any fun h => h.key = "rem_p" ∧ h.idx = 0) = false ∧
      doAction 0 "rem_p" 0 "down"
          { kind := "emit", text := "power_off", when_ := "down", rep := false,
            minHold := 800 } ⟨[("rem_p", 0)], [], []⟩ =
        (⟨[("rem_p", 0)], [], [⟨"rem_p", 0, 800, "power_off", false⟩]⟩,
         [.holdStart "rem_p" 0])) ∧
    ((fireHold ⟨[], [], [⟨"rem_p", 0, 800, "power_off", false⟩]⟩
        ⟨"rem_p", 0, 800, "power_off", false⟩).2 = [] ∧
      (fireHold ⟨[], [], [⟨"rem_p", 0, 800, "power_off", false⟩]⟩
        ⟨"rem_p", 0, 800, "power_off", false⟩).1.holds = []) := by
  constructor
  · refine ⟨by decide, by decide, ?_⟩
    exact c5_hold_to_fire.1 0 "rem_p" 0 "power_off" false 800 ⟨[("rem_p", 0)], [], []⟩
      (by decide) (by decide)
  · constructor
    · have h := (c5_hold_to_fire.2.1 ⟨[], [], [⟨"rem_p", 0, 800, "power_off", false⟩]⟩
        ⟨"rem_p", 0, 800, "power_off", false⟩).1
      by_contra hne
      exact absurd (h.mp hne) (by decide)
    · have h := (c5_hold_to_fire.2.1 ⟨[], [], [⟨"rem_p", 0, 800, "power_off", false⟩]⟩
        ⟨"rem_p", 0, 800, "power_off", false⟩).2.2
      rw [h]
      decide

/-- C10: when no activity has been set or the current activity is not a
key of the keymap's activities mapping, an edge executes no bindings —
no send, no BLE call, no repeat or hold task start — while a `down` edge
still records `pressed_at[remKey]` and cancels the key's hold tasks, and
an `up` edge cancels the key's repeat and hold tasks and removes
`pressed_at[remKey]`. -/
theorem c10_unknown_activity_noop
    (acts : List (String × List (String × List Binding))) (activity : Option String)
    (key edge : String) (t : Nat) (s : DState)
    (hact : activity = none ∨ ∃ a, activity = some a ∧ acts.lookup a = none) :
    (onUsbEdge acts activity key edge t s).2 = [] ∧
    (edge = "down" →
      (onUsbEdge acts activity key edge t s).1 =
        { pressedAt := (key, t) :: s.pressedAt.filter (fun p => p.1 ≠ key),
          repeatKeys := s.repeatKeys,
          holds := s.holds.filter (fun h => h.key ≠ key) }) ∧
    (edge = "up" →
      (onUsbEdge acts activity key edge t s).1 =
        { pressedAt := s.pressedAt.filter (fun p => p.1 ≠ key),
          repeatKeys := s.repeatKeys.filter (fun k => k ≠ key),
          holds := s.holds.filter (fun h => h.key ≠ key) }) := by
  have hmap : activityMap acts activity = [] := by
    rcases hact with h | ⟨a, ha, hl⟩
    · rw [h]
      rfl
    · rw [ha]
      simp [activityMap, hl]
  unfold onUsbEdge
  rw [hmap]
  refine ⟨?_, ?_, ?_⟩
  · by_cases hd : edge = "down"
    · simp [hd, runActionsFrom]
    · by_cases hu : edge = "up" <;> simp [hd, hu, runActionsFrom]
  · intro hd
    subst hd
    simp [runActionsFrom, cancelHolds, List.lookup]
  · intro hu
    subst hu
    simp [runActionsFrom, cancelHolds, List.lookup]

/-- Witness for C10: an activity string absent from the keymap, an `up`
edge, and a state holding stale entries for the key. -/
theorem c10_unknown_activity_noop_witness :
    (onUsbEdge [("WATCH", [("rem_a", [Binding.mk "ble" "consumer" "play" "" "down" false 0])])]
        (some "LISTEN") "rem_a" "up" 500
        ⟨[("rem_a", 3)], ["rem_a"], [⟨"rem_a", 0, 99, "x", false⟩]⟩).2 = [] ∧
    (onUsbEdge [("WATCH", [("rem_a", [Binding.mk "ble" "consumer" "play" "" "down" false 0])])]
        (some "LISTEN") "rem_a" "up" 500
        ⟨[("rem_a", 3)], ["rem_a"], [⟨"rem_a", 0, 99, "x", false⟩]⟩).1 =
      ⟨[], [], []⟩ := by
  have h := c10_unknown_activity_noop
    [("WATCH", [("rem_a", [Binding.mk "ble" "consumer" "play" "" "down" false 0])])]
    (some "LISTEN") "rem_a" "up" 500
    ⟨[("rem_a", 3)], ["rem_a"], [⟨"rem_a", 0, 99, "x", false⟩]⟩
    (Or.inr ⟨"LISTEN", rfl, rfl⟩)
  refine ⟨h.1, ?_⟩
  rw [h.2.2 rfl]
  decide

end PiHub
